import Mathlib

/-!
Shallow embedding of `eca-recommend` (`src/core.go`): a pure Go library that
recommends an encryption algorithm, a compression algorithm and a zstd level
for a file, from a content/extension classification and three usage signals.

Modelling conventions:
* Go `float64` score arithmetic is embedded as exact rational arithmetic (`ℚ`);
  every constant in the source is a short decimal, represented exactly.
* The Go file handle `*os.File` is embedded as `GoFile`: the file name, the
  byte content (as `List Nat`), a flag for a non-EOF `ReadAt` failure and a
  flag for a `Stat` failure.  `RecommendAlgorithms` takes `Option GoFile`
  (`none` embeds a nil handle) and returns `Except String Recommendation`.
* The two standard-library lookups used by `detectFileCategory`
  (`http.DetectContentType` and `mime.TypeByExtension`) are external to the
  repository; the embedding takes them as parameters (`dct`, `tbe`).  Concrete
  models of the standard library's behaviour on the inputs used here are given
  below (`goDetectContentType`, `goMimeTypeByExtension`).
* Go iterates the score maps with `for k, v := range …` in an unspecified
  order when picking the winner; the embedding makes that order an explicit
  parameter (`encOrder`, `compOrder`), each a permutation of the key set.
* The `Reason` string is built as in the source, except that the `%.2f`
  float rendering of a score is abstracted by an exact rational rendering
  (`optStr`); no property below depends on the numeric text.
-/

namespace EcaRecommend

/-- Embeds the `*os.File` handle: name, full byte content, whether `ReadAt`
fails with a non-EOF error, and whether `Stat` fails. -/
structure GoFile where
  name : String
  content : List Nat
  readErr : Bool
  statErr : Bool
deriving DecidableEq

/-- Structure `Prefs` from `src/core.go`. -/
structure Prefs where
  Tradeoff : String
  AssumeAESNI : Bool
  ForceDetectExt : Bool
deriving DecidableEq

/-- Structure `Recommendation` from `src/core.go`.  The Go `map[string]float64`
`ScoreBreakdown` is embedded as an association list in insertion order
(the insertion order is fixed by the candidate slices in the source). -/
structure Recommendation where
  Encryption : String
  Compression : String
  ZstdLevel : Int
  SkipCompression : Bool
  ScoreBreakdown : List (String × ℚ)
  Reason : String
  DetectedMime : String
  DetectedCategory : String
deriving DecidableEq

/-- Lookup in the score map. -/
def Recommendation.score (r : Recommendation) (k : String) : Option ℚ :=
  r.ScoreBreakdown.lookup k

/-- Helper for `goFilepathExt`: scans the reversed character list of a path,
collecting characters until the final dot (stopping at a path separator),
exactly like Go `filepath.Ext`. -/
def extFromRev (acc : List Char) : List Char → List Char
  | [] => []
  | c :: rest =>
    if c = '/' then []
    else if c = '.' then '.' :: acc
    else extFromRev (c :: acc) rest

/-- Go `filepath.Ext`: the suffix beginning at the final dot in the final
path element; empty if there is no dot. -/
def goFilepathExt (name : String) : String :=
  String.mk (extFromRev [] name.data.reverse)

/-- Go `strings.Contains`: substring test. -/
def goContains (s sub : String) : Bool :=
  s.data.tails.any fun t => sub.data.isPrefixOf t

/-- ASCII lower-casing of one character (the effect of Go `strings.ToLower`
on the ASCII data used here). -/
def goCharToLower (c : Char) : Char :=
  if 65 ≤ c.toNat ∧ c.toNat ≤ 90 then Char.ofNat (c.toNat + 32) else c

/-- Go `strings.ToLower` (character-wise lower-casing). -/
def goToLower (s : String) : String :=
  String.mk (s.data.map goCharToLower)

/-- Go `strings.TrimSpace`: strip leading and trailing whitespace. -/
def goTrimSpace (s : String) : String :=
  String.mk (((s.data.dropWhile Char.isWhitespace).reverse.dropWhile
    Char.isWhitespace).reverse)

/-- Go `strings.HasPrefix`. -/
def goHasPrefix (s pre : String) : Bool :=
  pre.data.isPrefixOf s.data

/-- Extensions `.txt,.md,.csv,.log,.json,.xml,.yaml,.yml` and the source-code
extensions of the `switch ext` fallback in `detectFileCategory`. -/
def textExtras : List String :=
  [".txt", ".md", ".csv", ".log", ".json", ".xml", ".yaml", ".yml",
   ".go", ".py", ".c", ".cpp", ".java"]

/-- The MIME-string-based part of the category chain in `detectFileCategory`
(`strings.HasPrefix` / `strings.Contains` tests), with the default `"binary"`
in place of the extension `switch`.  Stated separately so that theorems can
speak about "the category the MIME-based rule chose". -/
def mimeOnlyCategory (low : String) : String :=
  if goHasPrefix low "text/" then "text"
  else if goHasPrefix low "image/" then "image"
  else if goHasPrefix low "audio/" then "audio"
  else if goHasPrefix low "video/" then "video"
  else if goContains low "zip" || goContains low "compressed" ||
      goContains low "x-rar" || goContains low "7z" || goContains low "tar" then "archive"
  else "binary"

/-- The full category chain of `detectFileCategory`: the MIME-based tests,
and in the final `else` branch the extension `switch` (which therefore runs
only when every MIME-based test failed). -/
def categoryOf (low ext : String) : String :=
  if goHasPrefix low "text/" then "text"
  else if goHasPrefix low "image/" then "image"
  else if goHasPrefix low "audio/" then "audio"
  else if goHasPrefix low "video/" then "video"
  else if goContains low "zip" || goContains low "compressed" ||
      goContains low "x-rar" || goContains low "7z" || goContains low "tar" then "archive"
  else if ext ∈ textExtras then "text"
  else if ext = ".pdf" then "archive"
  else "binary"

/-- The final MIME string of `detectFileCategory` on the non-error path:
content sniffing on the first 512 bytes, overridden by the extension-to-MIME
lookup when the extension is nonempty and the lookup is nonempty. -/
def finalMime (dct : List Nat → String) (tbe : String → String) (f : GoFile) : String :=
  let mime0 := dct (f.content.take 512)
  let ext := goToLower (goFilepathExt f.name)
  if ext ≠ "" then
    if tbe ext ≠ "" then tbe ext else mime0
  else mime0

/-- Function `detectFileCategory` from `src/core.go`.  `dct` embeds
`http.DetectContentType`, `tbe` embeds `mime.TypeByExtension` (returning
`""` for an unknown extension, as in Go).  A non-EOF read error short-circuits
to `application/octet-stream` / `binary`. -/
def detectFileCategory (dct : List Nat → String) (tbe : String → String)
    (f : GoFile) : String × String :=
  if f.readErr then ("application/octet-stream", "binary")
  else
    let mimeStr := finalMime dct tbe f
    let ext := goToLower (goFilepathExt f.name)
    (mimeStr, categoryOf (goToLower mimeStr) ext)

/-- Tradeoff normalization: `strings.TrimSpace(strings.ToLower(·))`, then
default to `"balanced"` unless the result is one of the three valid values. -/
def normTradeoff (s : String) : String :=
  let t := goTrimSpace (goToLower s)
  if t ≠ "speed" ∧ t ≠ "ratio" ∧ t ≠ "balanced" then "balanced" else t

/-- Attention clamp to `[0, 1]`. -/
def clamp01 (q : ℚ) : ℚ :=
  if q < 0 then 0 else if q > 1 then 1 else q

/-- Weekly recency weight: negative hours clamped to 0, divided by `24*7`,
capped at 3. -/
def luhWeight (luh : Int) : ℚ :=
  let l : Int := if luh < 0 then 0 else luh
  let w : ℚ := (l : ℚ) / (24 * 7)
  if w > 3 then 3 else w

/-- Size fallback: a caller-supplied size `≤ 0` is replaced by the `Stat`
size (the content length) when `Stat` succeeds, else by 0; a negative result
is clamped to 0. -/
def effSize (f : GoFile) (sizeBytes : Int) : Int :=
  let s : Int := if sizeBytes ≤ 0 then (if f.statErr then 0 else (f.content.length : Int)) else sizeBytes
  if s < 0 then 0 else s

/-- Computes `sizeMB = sizeBytes / (1024*1024)` in exact rational arithmetic. -/
def sizeMBOf (sizeBytes : Int) : ℚ :=
  (sizeBytes : ℚ) / (1024 * 1024)

/-- The encryption candidate slice, in source order. -/
def encCandidates : List String :=
  ["aes256gcm", "aes256gcmsiv", "xchacha20poly1305"]

/-- The compression candidate slice, in source order. -/
def compCandidates : List String :=
  ["zip", "lzma2", "lz4", "zstd"]

/-- Per-candidate encryption score: the body of the first scoring loop of
`RecommendAlgorithms`, with the clamped signals already substituted. -/
def encScore (att luhW sizeMB : ℚ) (aesni : Bool) (tradeoff : String)
    (c : String) : ℚ :=
  let score : ℚ := 0.1
  if c = "aes256gcmsiv" then
    score + (att * 2.5 + luhW * 1.2)
  else if c = "aes256gcm" then
    (if aesni then score + (att * 0.6 + 2.0) else score + (att * 0.6 + 0.6)) + luhW * 0.6
  else if c = "xchacha20poly1305" then
    ((if sizeMB > 100 then score + 3.0 else score) +
      (if tradeoff = "speed" then 1.2 else 0)) + att * 0.8
  else score

/-- Flag `isAlreadyCompressed`: the `switch category` in the source, with its four
cases `"image", "video", "audio", "archive"`. -/
def isAlreadyCompressed (category : String) : Bool :=
  category == "image" || category == "video" || category == "audio" || category == "archive"

/-- Per-candidate compression score: the body of the second scoring loop of
`RecommendAlgorithms` (already-compressed branch, per-candidate tradeoff/size
adjustments, and the universal `>500MB` bonus for zstd and lz4). -/
def compScore (sizeMB : ℚ) (tradeoff : String) (isAC : Bool) (c : String) : ℚ :=
  let score : ℚ := 0.1
  let score :=
    if isAC then
      if c = "lz4" then score + 2.0 else score - 1.2
    else
      if c = "lzma2" then
        (if tradeoff = "ratio" then score + 3.0
         else if tradeoff = "balanced" then score + 1.6
         else score + 0.6) + (if sizeMB > 100 then 1.2 else 0)
      else if c = "zstd" then
        (if tradeoff = "ratio" then score + 2.5
         else if tradeoff = "balanced" then score + 2.0
         else score + 1.2) + (if sizeMB > 50 then 1.0 else 0)
      else if c = "lz4" then
        (if tradeoff = "speed" then score + 2.2
         else if tradeoff = "balanced" then score + 1.0
         else score + 0.3) + (if sizeMB < 10 then 0.6 else 0)
      else if c = "zip" then
        (if sizeMB < 10 then score + 1.2 else score) +
          (if tradeoff = "speed" then 0.6 else 0)
      else score
  if sizeMB > 500 ∧ (c = "zstd" ∨ c = "lz4") then score + 1.2 else score

/-- One step of the winner-selection loop: the running best is `none`
(embedding the `math.Inf(-1)` initial value) or `some m`; a candidate beats
it when its score is strictly greater. -/
def beats (v : ℚ) : Option ℚ → Bool
  | none => true
  | some m => decide (m < v)

/-- The winner-selection loop `for k, v := range scores`, with the map
iteration order made explicit as `order`.  Returns the running
`(bestKey, bestScore)` pair, starting from `("", -Inf)`. -/
def pickBest (scores : String → ℚ) (order : List String) : String × Option ℚ :=
  order.foldl
    (fun acc k => if beats (scores k) acc.2 then (k, some (scores k)) else acc)
    ("", none)

/-- Tests `v < c` where `v` is a running best (`none` embeds `-Inf`, which is below
every bound). -/
def optLtQ (x : Option ℚ) (c : ℚ) : Bool :=
  match x with
  | none => true
  | some v => decide (v < c)

/-- Exact rendering of a running-best score for the `Reason` string
(abstracts Go's `%.2f` float formatting). -/
def optStr (x : Option ℚ) : String :=
  match x with
  | none => "-Inf"
  | some v => toString v.num ++ "/" ++ toString v.den

/-- The zstd level `switch` of `RecommendAlgorithms`, including the final
clamp to `[1, 22]`. -/
def goZstdLevel (tradeoff : String) (sizeMB : ℚ) : Int :=
  let level : Int :=
    if tradeoff = "speed" then 1
    else if tradeoff = "balanced" then
      (if sizeMB > 200 then 3 else if sizeMB > 50 then 5 else 3)
    else if tradeoff = "ratio" then
      (if sizeMB > 500 then 12 else if sizeMB > 200 then 9 else 7)
    else 3
  let level : Int := if level < 1 then 1 else level
  if level > 22 then 22 else level

/-- The fully-preprocessed encryption score function of a call: the clamped
signals and the normalized tradeoff substituted into `encScore`. -/
def encScores (f : GoFile) (lastUsedHours : Int) (attention : ℚ)
    (sizeBytes : Int) (prefs : Prefs) : String → ℚ :=
  encScore (clamp01 attention) (luhWeight lastUsedHours)
    (sizeMBOf (effSize f sizeBytes)) prefs.AssumeAESNI (normTradeoff prefs.Tradeoff)

/-- The fully-preprocessed compression score function of a call. -/
def compScores (dct : List Nat → String) (tbe : String → String)
    (f : GoFile) (sizeBytes : Int) (prefs : Prefs) : String → ℚ :=
  compScore (sizeMBOf (effSize f sizeBytes)) (normTradeoff prefs.Tradeoff)
    (isAlreadyCompressed (detectFileCategory dct tbe f).2)

/-- Value `bestEnc`: the encryption winner of the selection loop, with the source's
defensive `""` fallback to `"aes256gcm"`. -/
def bestEncOf (encOrder : List String) (f : GoFile) (lastUsedHours : Int)
    (attention : ℚ) (sizeBytes : Int) (prefs : Prefs) : String :=
  let p := pickBest (encScores f lastUsedHours attention sizeBytes prefs) encOrder
  if p.1 = "" then "aes256gcm" else p.1

/-- Value `bestComp`: the compression winner of the selection loop, with the
source's defensive `""` fallback to `"lz4"`. -/
def bestCompOf (dct : List Nat → String) (tbe : String → String)
    (compOrder : List String) (f : GoFile) (sizeBytes : Int) (prefs : Prefs) :
    String :=
  let p := pickBest (compScores dct tbe f sizeBytes prefs) compOrder
  if p.1 = "" then "lz4" else p.1

/-- The skip-compression condition of the source:
`isAlreadyCompressed && (bestCompScore < 0.5 || (bestComp == "lz4" && tradeoff != "ratio"))`. -/
def skipOf (dct : List Nat → String) (tbe : String → String)
    (compOrder : List String) (f : GoFile) (sizeBytes : Int) (prefs : Prefs) :
    Bool :=
  isAlreadyCompressed (detectFileCategory dct tbe f).2 &&
    (optLtQ (pickBest (compScores dct tbe f sizeBytes prefs) compOrder).2 0.5 ||
      (bestCompOf dct tbe compOrder f sizeBytes prefs == "lz4" &&
        normTradeoff prefs.Tradeoff != "ratio"))

/-- The body of `RecommendAlgorithms` after the nil check, assembled exactly
as in the source: size fallback, classification, normalization, the two
scoring loops, the two winner selections with their `""` fallbacks, the
skip-compression policy and the zstd level policy. -/
def recommendCore (dct : List Nat → String) (tbe : String → String)
    (encOrder compOrder : List String) (f : GoFile)
    (lastUsedHours : Int) (attention : ℚ) (sizeBytes : Int) (prefs : Prefs) :
    Recommendation :=
  let category := (detectFileCategory dct tbe f).2
  let tradeoff := normTradeoff prefs.Tradeoff
  let sizeMB := sizeMBOf (effSize f sizeBytes)
  let encS := encScores f lastUsedHours attention sizeBytes prefs
  let pE := pickBest encS encOrder
  let bestEnc := bestEncOf encOrder f lastUsedHours attention sizeBytes prefs
  let compS := compScores dct tbe f sizeBytes prefs
  let pC := pickBest compS compOrder
  let bestComp := bestCompOf dct tbe compOrder f sizeBytes prefs
  let skip := skipOf dct tbe compOrder f sizeBytes prefs
  { Encryption := bestEnc
    Compression := if skip then "none" else bestComp
    ZstdLevel := if (if skip then "none" else bestComp) = "zstd" then goZstdLevel tradeoff sizeMB else 0
    SkipCompression := skip
    ScoreBreakdown :=
      encCandidates.map (fun c => ("enc_" ++ c, encS c)) ++
        compCandidates.map (fun c => ("comp_" ++ c, compS c))
    Reason :=
      if skip then "文件类型 " ++ category ++ " 可能已经被压缩，建议跳过压缩。"
      else "选中加密: " ++ bestEnc ++ "（分数 " ++ optStr pE.2 ++ "），压缩: " ++
        bestComp ++ "（分数 " ++ optStr pC.2 ++ "）"
    DetectedMime := (detectFileCategory dct tbe f).1
    DetectedCategory := category }

/-- Function `RecommendAlgorithms` from `src/core.go`: the only error is a nil file
handle; otherwise the core runs and always succeeds. -/
def RecommendAlgorithms (dct : List Nat → String) (tbe : String → String)
    (encOrder compOrder : List String) (file : Option GoFile)
    (lastUsedHours : Int) (attention : ℚ) (sizeBytes : Int) (prefs : Prefs) :
    Except String Recommendation :=
  match file with
  | none => Except.error "file is nil"
  | some f => Except.ok (recommendCore dct tbe encOrder compOrder f lastUsedHours attention sizeBytes prefs)

/-- The Go PNG magic bytes (`\x89PNG\r\n\x1a\n`). -/
def pngSig : List Nat := [137, 80, 78, 71, 13, 10, 26, 10]

/-- A byte net/http's `textSig` treats as binary
(`≤ 0x08`, `0x0B`, `0x0E–0x1A`, `0x1C–0x1F`). -/
def isBinaryByte (b : Nat) : Bool :=
  b ≤ 0x08 || b == 0x0B || (0x0E ≤ b && b ≤ 0x1A) || (0x1C ≤ b && b ≤ 0x1F)

/-- Models Go `http.DetectContentType` on the byte strings used in this
development: the PNG signature sniffs to `image/png`; otherwise data whose
bytes are all non-binary — including empty data — matches the library's
trailing `textSig` and sniffs to `text/plain; charset=utf-8`; otherwise the
default `application/octet-stream`.  (The other magic signatures of the
library are never exercised here.) -/
def goDetectContentType (data : List Nat) : String :=
  let d := data.take 512
  if pngSig.isPrefixOf d then "image/png"
  else if d.any isBinaryByte then "application/octet-stream"
  else "text/plain; charset=utf-8"

/-- Models the builtin extension table of Go `mime.TypeByExtension` for the
extensions used in this development; extensions absent from the builtin table
(such as `.txt`, `.go`, or no extension) yield `""`.  System-installed MIME
tables are not modelled. -/
def goMimeTypeByExtension (ext : String) : String :=
  if ext = ".json" then "application/json"
  else if ext = ".png" then "image/png"
  else if ext = ".pdf" then "application/pdf"
  else if ext = ".xml" then "text/xml; charset=utf-8"
  else ""

/-- The fixed tie-break priority for encryption mandated by the spec,
as the map iteration order that realizes it. -/
def encPriority : List String :=
  ["aes256gcm", "aes256gcmsiv", "xchacha20poly1305"]

/-- The fixed tie-break priority for compression mandated by the spec,
as the map iteration order that realizes it. -/
def compPriority : List String :=
  ["lzma2", "zstd", "lz4", "zip"]

/-! ### Lemmas about the winner-selection loop -/

/-- Invariant of the selection fold: starting from a running best `(b, some m)`,
the fold returns a pair whose score component is `some` of a value that bounds
`m` and every score seen, and whose key is either the initial `b` (with value
`m`) or an element of the list (with its own score). -/
theorem pickBest_go_spec (scores : String → ℚ) :
    ∀ (l : List String) (b : String) (m : ℚ),
      ∃ w v,
        List.foldl
          (fun acc k => if beats (scores k) acc.2 then (k, some (scores k)) else acc)
          (b, some m) l = (w, some v) ∧
        ((w = b ∧ v = m) ∨ (w ∈ l ∧ v = scores w)) ∧
        m ≤ v ∧ ∀ k ∈ l, scores k ≤ v := by
  intro l
  induction l with
  | nil =>
    intro b m
    exact ⟨b, m, rfl, Or.inl ⟨rfl, rfl⟩, le_refl m, by simp⟩
  | cons k rest ih =>
    intro b m
    by_cases hk : m < scores k
    · have hstep :
        (if beats (scores k) (b, some m).2 then (k, some (scores k)) else (b, some m)) =
          (k, some (scores k)) := by
        simp [beats, hk]
      obtain ⟨w, v, heq, hcase, hle, hall⟩ := ih k (scores k)
      refine ⟨w, v, ?_, ?_, ?_, ?_⟩
      · simpa [List.foldl_cons, hstep] using heq
      · rcases hcase with ⟨hw, hv⟩ | ⟨hw, hv⟩
        · exact Or.inr ⟨by simp [hw], by rw [hv, hw]⟩
        · exact Or.inr ⟨List.mem_cons_of_mem _ hw, hv⟩
      · exact le_trans (le_of_lt hk) hle
      · intro j hj
        rcases List.mem_cons.mp hj with hj | hj
        · rw [hj]; exact hle
        · exact hall j hj
    · have hstep :
        (if beats (scores k) (b, some m).2 then (k, some (scores k)) else (b, some m)) =
          (b, some m) := by
        simp [beats, hk]
      obtain ⟨w, v, heq, hcase, hle, hall⟩ := ih b m
      refine ⟨w, v, ?_, ?_, hle, ?_⟩
      · simpa [List.foldl_cons, hstep] using heq
      · rcases hcase with h | ⟨hw, hv⟩
        · exact Or.inl h
        · exact Or.inr ⟨List.mem_cons_of_mem _ hw, hv⟩
      · intro j hj
        rcases List.mem_cons.mp hj with hj | hj
        · rw [hj]; exact le_trans (le_of_not_lt hk) hle
        · exact hall j hj

/-- On a nonempty iteration order the selection loop returns some key of the
order together with its own score, and that score bounds every score in the
order (the winner is maximal). -/
theorem pickBest_max (scores : String → ℚ) (order : List String)
    (hne : order ≠ []) :
    ∃ w, pickBest scores order = (w, some (scores w)) ∧ w ∈ order ∧
      ∀ k ∈ order, scores k ≤ scores w := by
  match order, hne with
  | k :: rest, _ =>
    have hstep :
        (if beats (scores k) (("", (none : Option ℚ))).2 then (k, some (scores k))
          else ("", none)) = (k, some (scores k)) := by
      simp [beats]
    obtain ⟨w, v, heq, hcase, hle, hall⟩ := pickBest_go_spec scores rest k (scores k)
    have hv : v = scores w := by
      rcases hcase with ⟨hw, hv⟩ | ⟨_, hv⟩
      · rw [hv, hw]
      · exact hv
    refine ⟨w, ?_, ?_, ?_⟩
    · unfold pickBest
      rw [List.foldl_cons, hstep, heq, hv]
    · rcases hcase with ⟨hw, _⟩ | ⟨hw, _⟩
      · simp [hw]
      · exact List.mem_cons_of_mem _ hw
    · intro j hj
      rcases List.mem_cons.mp hj with hj | hj
      · rw [hj, ← hv]; exact hle
      · rw [← hv]; exact hall j hj

/-- Inversion: a successful call is the core applied to the wrapped file. -/
theorem recommend_ok_inv (dct : List Nat → String) (tbe : String → String)
    (eo co : List String) (f : GoFile) (luh : Int) (att : ℚ) (sz : Int)
    (prefs : Prefs) (r : Recommendation)
    (h : RecommendAlgorithms dct tbe eo co (some f) luh att sz prefs = Except.ok r) :
    r = recommendCore dct tbe eo co f luh att sz prefs := by
  simpa [RecommendAlgorithms] using h.symm

/-! ### Projection lemmas for the core -/

theorem core_Encryption (dct : List Nat → String) (tbe : String → String)
    (eo co : List String) (f : GoFile) (luh : Int) (att : ℚ) (sz : Int)
    (prefs : Prefs) :
    (recommendCore dct tbe eo co f luh att sz prefs).Encryption =
      bestEncOf eo f luh att sz prefs := rfl

theorem core_Compression (dct : List Nat → String) (tbe : String → String)
    (eo co : List String) (f : GoFile) (luh : Int) (att : ℚ) (sz : Int)
    (prefs : Prefs) :
    (recommendCore dct tbe eo co f luh att sz prefs).Compression =
      (if skipOf dct tbe co f sz prefs then "none"
        else bestCompOf dct tbe co f sz prefs) := rfl

theorem core_Skip (dct : List Nat → String) (tbe : String → String)
    (eo co : List String) (f : GoFile) (luh : Int) (att : ℚ) (sz : Int)
    (prefs : Prefs) :
    (recommendCore dct tbe eo co f luh att sz prefs).SkipCompression =
      skipOf dct tbe co f sz prefs := rfl

theorem core_ZstdLevel (dct : List Nat → String) (tbe : String → String)
    (eo co : List String) (f : GoFile) (luh : Int) (att : ℚ) (sz : Int)
    (prefs : Prefs) :
    (recommendCore dct tbe eo co f luh att sz prefs).ZstdLevel =
      (if (if skipOf dct tbe co f sz prefs then "none"
            else bestCompOf dct tbe co f sz prefs) = "zstd"
        then goZstdLevel (normTradeoff prefs.Tradeoff) (sizeMBOf (effSize f sz))
        else 0) := rfl

theorem core_Breakdown (dct : List Nat → String) (tbe : String → String)
    (eo co : List String) (f : GoFile) (luh : Int) (att : ℚ) (sz : Int)
    (prefs : Prefs) :
    (recommendCore dct tbe eo co f luh att sz prefs).ScoreBreakdown =
      [("enc_aes256gcm", encScores f luh att sz prefs "aes256gcm"),
       ("enc_aes256gcmsiv", encScores f luh att sz prefs "aes256gcmsiv"),
       ("enc_xchacha20poly1305", encScores f luh att sz prefs "xchacha20poly1305"),
       ("comp_zip", compScores dct tbe f sz prefs "zip"),
       ("comp_lzma2", compScores dct tbe f sz prefs "lzma2"),
       ("comp_lz4", compScores dct tbe f sz prefs "lz4"),
       ("comp_zstd", compScores dct tbe f sz prefs "zstd")] := rfl

theorem core_Detected (dct : List Nat → String) (tbe : String → String)
    (eo co : List String) (f : GoFile) (luh : Int) (att : ℚ) (sz : Int)
    (prefs : Prefs) :
    (recommendCore dct tbe eo co f luh att sz prefs).DetectedMime =
        (detectFileCategory dct tbe f).1 ∧
      (recommendCore dct tbe eo co f luh att sz prefs).DetectedCategory =
        (detectFileCategory dct tbe f).2 := ⟨rfl, rfl⟩

/-- Looking the seven keys up in the breakdown. -/
theorem core_score_lookup (dct : List Nat → String) (tbe : String → String)
    (eo co : List String) (f : GoFile) (luh : Int) (att : ℚ) (sz : Int)
    (prefs : Prefs) :
    (recommendCore dct tbe eo co f luh att sz prefs).score "enc_aes256gcm" =
        some (encScores f luh att sz prefs "aes256gcm") ∧
      (recommendCore dct tbe eo co f luh att sz prefs).score "enc_aes256gcmsiv" =
        some (encScores f luh att sz prefs "aes256gcmsiv") ∧
      (recommendCore dct tbe eo co f luh att sz prefs).score "enc_xchacha20poly1305" =
        some (encScores f luh att sz prefs "xchacha20poly1305") ∧
      (recommendCore dct tbe eo co f luh att sz prefs).score "comp_zip" =
        some (compScores dct tbe f sz prefs "zip") ∧
      (recommendCore dct tbe eo co f luh att sz prefs).score "comp_lzma2" =
        some (compScores dct tbe f sz prefs "lzma2") ∧
      (recommendCore dct tbe eo co f luh att sz prefs).score "comp_lz4" =
        some (compScores dct tbe f sz prefs "lz4") ∧
      (recommendCore dct tbe eo co f luh att sz prefs).score "comp_zstd" =
        some (compScores dct tbe f sz prefs "zstd") := by
  refine ⟨rfl, rfl, rfl, rfl, rfl, rfl, rfl⟩

/-! ### Winner lemmas under a permutation hypothesis -/

/-- Under any iteration order that is a permutation of the candidate key set,
the chosen encryption is a candidate of maximal score (and the `""` fallback
never fires). -/
theorem bestEnc_max (eo : List String) (f : GoFile) (luh : Int) (att : ℚ)
    (sz : Int) (prefs : Prefs) (hperm : eo.Perm encCandidates) :
    bestEncOf eo f luh att sz prefs ∈ encCandidates ∧
      ∀ c ∈ encCandidates,
        encScores f luh att sz prefs c ≤
          encScores f luh att sz prefs (bestEncOf eo f luh att sz prefs) := by
  have hne : eo ≠ [] := by
    intro h
    subst h
    have := hperm.length_eq
    simp [encCandidates] at this
  obtain ⟨w, hw, hmem, hmax⟩ := pickBest_max (encScores f luh att sz prefs) eo hne
  have hmemC : w ∈ encCandidates := hperm.subset hmem
  have hwne : ¬w = "" := by
    simp [encCandidates] at hmemC
    rcases hmemC with h | h | h <;> simp [h]
  have hbest : bestEncOf eo f luh att sz prefs = w := by
    unfold bestEncOf
    rw [hw]
    simp [hwne]
  rw [hbest]
  exact ⟨hperm.subset hmem, fun c hc => hmax c (hperm.mem_iff.mpr hc)⟩

/-- Under any iteration order that is a permutation of the candidate key set,
the chosen compression is a candidate of maximal score, its running best is
its own score, and the `""` fallback never fires. -/
theorem bestComp_max (dct : List Nat → String) (tbe : String → String)
    (co : List String) (f : GoFile) (sz : Int) (prefs : Prefs)
    (hperm : co.Perm compCandidates) :
    bestCompOf dct tbe co f sz prefs ∈ compCandidates ∧
      pickBest (compScores dct tbe f sz prefs) co =
        (bestCompOf dct tbe co f sz prefs,
          some (compScores dct tbe f sz prefs (bestCompOf dct tbe co f sz prefs))) ∧
      ∀ c ∈ compCandidates,
        compScores dct tbe f sz prefs c ≤
          compScores dct tbe f sz prefs (bestCompOf dct tbe co f sz prefs) := by
  have hne : co ≠ [] := by
    intro h
    subst h
    have := hperm.length_eq
    simp [compCandidates] at this
  obtain ⟨w, hw, hmem, hmax⟩ := pickBest_max (compScores dct tbe f sz prefs) co hne
  have hmemC : w ∈ compCandidates := hperm.subset hmem
  have hwne : ¬w = "" := by
    simp [compCandidates] at hmemC
    rcases hmemC with h | h | h | h <;> simp [h]
  have hbest : bestCompOf dct tbe co f sz prefs = w := by
    unfold bestCompOf
    rw [hw]
    simp [hwne]
  rw [hbest]
  exact ⟨hmemC, hw, fun c hc => hmax c (hperm.mem_iff.mpr hc)⟩

/-- When some key of the order strictly dominates every other key of the
order, the selection loop returns exactly that key. -/
theorem pickBest_strict_winner (scores : String → ℚ) (order : List String)
    (x : String) (hx : x ∈ order)
    (hstrict : ∀ y ∈ order, y ≠ x → scores y < scores x) :
    pickBest scores order = (x, some (scores x)) := by
  obtain ⟨w, hw, hmem, hmax⟩ :=
    pickBest_max scores order (List.ne_nil_of_mem hx)
  by_cases hwx : w = x
  · rw [hw, hwx]
  · exact absurd (hmax x hx) (not_le.mpr (hstrict w hmem hwx))

/-- On a three-key iteration order, the selection loop keeps the earliest key
among those of maximal score: every earlier key scores strictly less, every
later key at most as much. -/
theorem pickBest_three_priority (s : String → ℚ) (a b c : String) :
    ((pickBest s [a, b, c]).1 = a ∧ s b ≤ s a ∧ s c ≤ s a) ∨
      ((pickBest s [a, b, c]).1 = b ∧ s a < s b ∧ s c ≤ s b) ∨
      ((pickBest s [a, b, c]).1 = c ∧ s a < s c ∧ s b < s c) := by
  by_cases h1 : s a < s b
  · by_cases h2 : s b < s c
    · refine Or.inr (Or.inr ⟨?_, lt_trans h1 h2, h2⟩)
      unfold pickBest
      simp [beats, h1, h2]
    · refine Or.inr (Or.inl ⟨?_, h1, le_of_not_lt h2⟩)
      unfold pickBest
      simp [beats, h1, h2]
  · by_cases h2 : s a < s c
    · refine Or.inr (Or.inr ⟨?_, h2, lt_of_le_of_lt (le_of_not_lt h1) h2⟩)
      unfold pickBest
      simp [beats, h1, h2]
    · refine Or.inl ⟨?_, le_of_not_lt h1, le_of_not_lt h2⟩
      unfold pickBest
      simp [beats, h1, h2]

/-- On a four-key iteration order, the selection loop keeps the earliest key
among those of maximal score. -/
theorem pickBest_four_priority (s : String → ℚ) (a b c d : String) :
    ((pickBest s [a, b, c, d]).1 = a ∧ s b ≤ s a ∧ s c ≤ s a ∧ s d ≤ s a) ∨
      ((pickBest s [a, b, c, d]).1 = b ∧ s a < s b ∧ s c ≤ s b ∧ s d ≤ s b) ∨
      ((pickBest s [a, b, c, d]).1 = c ∧ s a < s c ∧ s b < s c ∧ s d ≤ s c) ∨
      ((pickBest s [a, b, c, d]).1 = d ∧ s a < s d ∧ s b < s d ∧ s c < s d) := by
  by_cases h1 : s a < s b
  · by_cases h2 : s b < s c
    · by_cases h3 : s c < s d
      · refine Or.inr (Or.inr (Or.inr ⟨?_, by linarith, by linarith, h3⟩))
        unfold pickBest
        simp [beats, h1, h2, h3]
      · refine Or.inr (Or.inr (Or.inl ⟨?_, by linarith, h2, le_of_not_lt h3⟩))
        unfold pickBest
        simp [beats, h1, h2, h3]
    · by_cases h3 : s b < s d
      · refine Or.inr (Or.inr (Or.inr ⟨?_, by linarith, h3, by linarith⟩))
        unfold pickBest
        simp [beats, h1, h2, h3]
      · refine Or.inr (Or.inl ⟨?_, h1, le_of_not_lt h2, le_of_not_lt h3⟩)
        unfold pickBest
        simp [beats, h1, h2, h3]
  · by_cases h2 : s a < s c
    · by_cases h3 : s c < s d
      · refine Or.inr (Or.inr (Or.inr ⟨?_, by linarith, by linarith, h3⟩))
        unfold pickBest
        simp [beats, h1, h2, h3]
      · refine Or.inr (Or.inr (Or.inl ⟨?_, h2, by linarith, le_of_not_lt h3⟩))
        unfold pickBest
        simp [beats, h1, h2, h3]
    · by_cases h3 : s a < s d
      · refine Or.inr (Or.inr (Or.inr ⟨?_, h3, by linarith, by linarith⟩))
        unfold pickBest
        simp [beats, h1, h2, h3]
      · refine Or.inl ⟨?_, le_of_not_lt h1, le_of_not_lt h2, le_of_not_lt h3⟩
        unfold pickBest
        simp [beats, h1, h2, h3]

/-- The flag `isAlreadyCompressed` decides membership in the four already-compressed
categories. -/
theorem isAlreadyCompressed_eq_decide (c : String) :
    isAlreadyCompressed c =
      decide (c ∈ (["image", "video", "audio", "archive"] : List String)) := by
  by_cases h1 : c = "image" <;> by_cases h2 : c = "video" <;>
    by_cases h3 : c = "audio" <;> by_cases h4 : c = "archive" <;>
    simp [isAlreadyCompressed, h1, h2, h3, h4]

/-! ### Closed forms of the per-candidate scores -/

theorem encScore_siv (a w m : ℚ) (ae : Bool) (t : String) :
    encScore a w m ae t "aes256gcmsiv" = 0.1 + a * 2.5 + w * 1.2 := by
  simp [encScore]
  ring

theorem encScore_gcm (a w m : ℚ) (ae : Bool) (t : String) :
    encScore a w m ae t "aes256gcm" =
      0.1 + a * 0.6 + (if ae then 2.0 else 0.6) + w * 0.6 := by
  simp [encScore]
  cases ae <;> simp <;> ring

theorem encScore_xchacha (a w m : ℚ) (ae : Bool) (t : String) :
    encScore a w m ae t "xchacha20poly1305" =
      0.1 + (if m > 100 then 3.0 else 0) + (if t = "speed" then 1.2 else 0) +
        a * 0.8 := by
  simp [encScore]
  split_ifs <;> ring

theorem compScore_lzma2 (m : ℚ) (t : String) (ac : Bool) :
    compScore m t ac "lzma2" =
      0.1 + (if ac then -1.2 else
        (if t = "ratio" then 3.0 else if t = "balanced" then 1.6 else 0.6) +
          (if m > 100 then 1.2 else 0)) := by
  simp [compScore]
  split_ifs <;> ring

theorem compScore_zstd (m : ℚ) (t : String) (ac : Bool) :
    compScore m t ac "zstd" =
      0.1 + (if ac then -1.2 else
        (if t = "ratio" then 2.5 else if t = "balanced" then 2.0 else 1.2) +
          (if m > 50 then 1.0 else 0)) + (if m > 500 then 1.2 else 0) := by
  simp [compScore]
  split_ifs <;> ring

theorem compScore_lz4 (m : ℚ) (t : String) (ac : Bool) :
    compScore m t ac "lz4" =
      0.1 + (if ac then 2.0 else
        (if t = "speed" then 2.2 else if t = "balanced" then 1.0 else 0.3) +
          (if m < 10 then 0.6 else 0)) + (if m > 500 then 1.2 else 0) := by
  simp [compScore]
  split_ifs <;> ring

theorem compScore_zip (m : ℚ) (t : String) (ac : Bool) :
    compScore m t ac "zip" =
      0.1 + (if ac then -1.2 else
        (if m < 10 then 1.2 else 0) + (if t = "speed" then 0.6 else 0)) := by
  simp [compScore]
  split_ifs <;> ring

/-- For an already-compressed category, lz4 scores `2.1` (`3.3` above 500MB),
every other candidate scores at most `0.1`, and lz4 is the strict compression
winner under any iteration order that covers the candidates. -/
theorem bestComp_lz4_of_AC (dct : List Nat → String) (tbe : String → String)
    (co : List String) (f : GoFile) (sz : Int) (prefs : Prefs)
    (hperm : co.Perm compCandidates)
    (hac : isAlreadyCompressed (detectFileCategory dct tbe f).2 = true) :
    bestCompOf dct tbe co f sz prefs = "lz4" ∧
      pickBest (compScores dct tbe f sz prefs) co =
        ("lz4", some (compScores dct tbe f sz prefs "lz4")) ∧
      compScores dct tbe f sz prefs "lz4" =
        (if sizeMBOf (effSize f sz) > 500 then 3.3 else 2.1) ∧
      (∀ c ∈ compCandidates, c ≠ "lz4" →
        compScores dct tbe f sz prefs c ≤ 0.1) ∧
      (0.5 : ℚ) ≤ compScores dct tbe f sz prefs "lz4" := by
  have hlz4 : compScores dct tbe f sz prefs "lz4" =
      (if sizeMBOf (effSize f sz) > 500 then 3.3 else 2.1) := by
    simp only [compScores, compScore_lz4, hac, if_true]
    split_ifs <;> norm_num
  have hlow : ∀ c ∈ compCandidates, c ≠ "lz4" →
      compScores dct tbe f sz prefs c ≤ 0.1 := by
    intro c hc hne
    simp only [compCandidates, List.mem_cons, List.not_mem_nil, or_false] at hc
    rcases hc with rfl | rfl | rfl | rfl
    · simp only [compScores, compScore_zip, hac, if_true]
      norm_num
    · simp only [compScores, compScore_lzma2, hac, if_true]
      norm_num
    · exact absurd rfl hne
    · simp only [compScores, compScore_zstd, hac, if_true]
      split_ifs <;> norm_num
  have hge : (2.1 : ℚ) ≤ compScores dct tbe f sz prefs "lz4" := by
    rw [hlz4]
    split_ifs <;> norm_num
  have hpick : pickBest (compScores dct tbe f sz prefs) co =
      ("lz4", some (compScores dct tbe f sz prefs "lz4")) := by
    refine pickBest_strict_winner _ co "lz4" (hperm.mem_iff.mpr (by decide)) ?_
    intro y hy hne
    have hle := hlow y (hperm.subset hy) hne
    linarith
  have hbc : bestCompOf dct tbe co f sz prefs = "lz4" := by
    unfold bestCompOf
    rw [hpick]
    simp
  refine ⟨hbc, hpick, hlz4, hlow, by linarith⟩

/-! ### Claim theorems -/

/-- C1: For every successful call to `RecommendAlgorithms` (file non-nil),
with `a` the attention clamped to `[0,1]`, `w = min(max(lastUsedHours,0)/168, 3)`
and `sizeMB` computed from the size after the fallback, the score map satisfies
`enc_aes256gcmsiv = 0.1 + a*2.5 + w*1.2`,
`enc_aes256gcm = 0.1 + a*0.6 + (2.0 if hardware AES assumed else 0.6) + w*0.6`,
`enc_xchacha20poly1305 = 0.1 + (3.0 if sizeMB>100) + (1.2 if tradeoff speed) + a*0.8`,
and the returned `Encryption` is a candidate whose score is maximal. -/
theorem C1_encryption_scoring (dct : List Nat → String) (tbe : String → String)
    (eo co : List String) (f : GoFile) (luh : Int) (att : ℚ) (sz : Int)
    (prefs : Prefs) (r : Recommendation)
    (hperm : eo.Perm encCandidates)
    (h : RecommendAlgorithms dct tbe eo co (some f) luh att sz prefs = Except.ok r) :
    r.score "enc_aes256gcmsiv" =
        some (0.1 + clamp01 att * 2.5 + luhWeight luh * 1.2) ∧
      r.score "enc_aes256gcm" =
        some (0.1 + clamp01 att * 0.6 + (if prefs.AssumeAESNI then 2.0 else 0.6) +
          luhWeight luh * 0.6) ∧
      r.score "enc_xchacha20poly1305" =
        some (0.1 + (if sizeMBOf (effSize f sz) > 100 then 3.0 else 0) +
          (if normTradeoff prefs.Tradeoff = "speed" then 1.2 else 0) +
          clamp01 att * 0.8) ∧
      r.Encryption ∈ encCandidates ∧
      ∀ c ∈ encCandidates,
        encScores f luh att sz prefs c ≤
          encScores f luh att sz prefs r.Encryption := by
  have hr := recommend_ok_inv dct tbe eo co f luh att sz prefs r h
  subst hr
  refine ⟨?_, ?_, ?_, ?_, ?_⟩
  · rw [(core_score_lookup dct tbe eo co f luh att sz prefs).2.1]
    simp only [encScores, encScore_siv]
  · rw [(core_score_lookup dct tbe eo co f luh att sz prefs).1]
    simp only [encScores, encScore_gcm]
  · rw [(core_score_lookup dct tbe eo co f luh att sz prefs).2.2.1]
    simp only [encScores, encScore_xchacha]
  · rw [core_Encryption]
    exact (bestEnc_max eo f luh att sz prefs hperm).1
  · rw [core_Encryption]
    exact (bestEnc_max eo f luh att sz prefs hperm).2

/-- A text-file fixture used by concrete witnesses: name `a.txt`, a single
printable byte, no read or stat failure. -/
def txtFixture : GoFile := ⟨"a.txt", [65], false, false⟩

/-- Witness for C1 at a concrete input. -/
theorem C1_encryption_scoring_witness :
    encPriority.Perm encCandidates ∧
      RecommendAlgorithms goDetectContentType goMimeTypeByExtension encPriority
          compPriority (some txtFixture) 84 (1/2) 1048576 ⟨"speed", true, false⟩ =
        Except.ok (recommendCore goDetectContentType goMimeTypeByExtension
          encPriority compPriority txtFixture 84 (1/2) 1048576 ⟨"speed", true, false⟩) ∧
      (recommendCore goDetectContentType goMimeTypeByExtension encPriority
          compPriority txtFixture 84 (1/2) 1048576 ⟨"speed", true, false⟩).score
          "enc_aes256gcmsiv" =
        some (0.1 + clamp01 (1/2) * 2.5 + luhWeight 84 * 1.2) :=
  ⟨by decide, rfl,
    (C1_encryption_scoring goDetectContentType goMimeTypeByExtension encPriority
      compPriority txtFixture 84 (1/2) 1048576 ⟨"speed", true, false⟩ _
      (by decide) rfl).1⟩

/-- C2: For every successful call, each compression candidate's score is
base `0.1` plus: when the category is already-compressed, `+2.0` for lz4 and
`-1.2` for every other candidate; otherwise the tabulated per-candidate
tradeoff adjustments and size bonuses; and in both branches zstd and lz4 get
`+1.2` when `sizeMB > 500`.  The winning compression candidate is one with
maximal score. -/
theorem C2_compression_scoring (dct : List Nat → String) (tbe : String → String)
    (eo co : List String) (f : GoFile) (luh : Int) (att : ℚ) (sz : Int)
    (prefs : Prefs) (r : Recommendation)
    (hperm : co.Perm compCandidates)
    (h : RecommendAlgorithms dct tbe eo co (some f) luh att sz prefs = Except.ok r) :
    r.score "comp_lzma2" =
        some (0.1 + (if (detectFileCategory dct tbe f).2 ∈
            (["image", "video", "audio", "archive"] : List String) then -1.2 else
          (if normTradeoff prefs.Tradeoff = "ratio" then 3.0
            else if normTradeoff prefs.Tradeoff = "balanced" then 1.6 else 0.6) +
            (if sizeMBOf (effSize f sz) > 100 then 1.2 else 0))) ∧
      r.score "comp_zstd" =
        some (0.1 + (if (detectFileCategory dct tbe f).2 ∈
            (["image", "video", "audio", "archive"] : List String) then -1.2 else
          (if normTradeoff prefs.Tradeoff = "ratio" then 2.5
            else if normTradeoff prefs.Tradeoff = "balanced" then 2.0 else 1.2) +
            (if sizeMBOf (effSize f sz) > 50 then 1.0 else 0)) +
          (if sizeMBOf (effSize f sz) > 500 then 1.2 else 0)) ∧
      r.score "comp_lz4" =
        some (0.1 + (if (detectFileCategory dct tbe f).2 ∈
            (["image", "video", "audio", "archive"] : List String) then 2.0 else
          (if normTradeoff prefs.Tradeoff = "speed" then 2.2
            else if normTradeoff prefs.Tradeoff = "balanced" then 1.0 else 0.3) +
            (if sizeMBOf (effSize f sz) < 10 then 0.6 else 0)) +
          (if sizeMBOf (effSize f sz) > 500 then 1.2 else 0)) ∧
      r.score "comp_zip" =
        some (0.1 + (if (detectFileCategory dct tbe f).2 ∈
            (["image", "video", "audio", "archive"] : List String) then -1.2 else
          (if sizeMBOf (effSize f sz) < 10 then 1.2 else 0) +
            (if normTradeoff prefs.Tradeoff = "speed" then 0.6 else 0))) ∧
      bestCompOf dct tbe co f sz prefs ∈ compCandidates ∧
      (∀ c ∈ compCandidates,
        compScores dct tbe f sz prefs c ≤
          compScores dct tbe f sz prefs (bestCompOf dct tbe co f sz prefs)) ∧
      (r.SkipCompression = false →
        r.Compression = bestCompOf dct tbe co f sz prefs) := by
  have hr := recommend_ok_inv dct tbe eo co f luh att sz prefs r h
  subst hr
  refine ⟨?_, ?_, ?_, ?_, ?_, ?_, ?_⟩
  · rw [(core_score_lookup dct tbe eo co f luh att sz prefs).2.2.2.2.1]
    simp only [compScores, compScore_lzma2, isAlreadyCompressed_eq_decide,
      decide_eq_true_eq]
  · rw [(core_score_lookup dct tbe eo co f luh att sz prefs).2.2.2.2.2.2]
    simp only [compScores, compScore_zstd, isAlreadyCompressed_eq_decide,
      decide_eq_true_eq]
  · rw [(core_score_lookup dct tbe eo co f luh att sz prefs).2.2.2.2.2.1]
    simp only [compScores, compScore_lz4, isAlreadyCompressed_eq_decide,
      decide_eq_true_eq]
  · rw [(core_score_lookup dct tbe eo co f luh att sz prefs).2.2.2.1]
    simp only [compScores, compScore_zip, isAlreadyCompressed_eq_decide,
      decide_eq_true_eq]
  · exact (bestComp_max dct tbe co f sz prefs hperm).1
  · exact (bestComp_max dct tbe co f sz prefs hperm).2.2
  · intro hsf
    rw [core_Skip] at hsf
    rw [core_Compression, hsf]
    simp

/-- Witness for C2 at a concrete input. -/
theorem C2_compression_scoring_witness :
    compPriority.Perm compCandidates ∧
      RecommendAlgorithms goDetectContentType goMimeTypeByExtension encPriority
          compPriority (some txtFixture) 0 0 1048576 ⟨"balanced", false, false⟩ =
        Except.ok (recommendCore goDetectContentType goMimeTypeByExtension
          encPriority compPriority txtFixture 0 0 1048576 ⟨"balanced", false, false⟩) ∧
      (recommendCore goDetectContentType goMimeTypeByExtension encPriority
          compPriority txtFixture 0 0 1048576 ⟨"balanced", false, false⟩).score
          "comp_lzma2" =
        some (0.1 + (if (detectFileCategory goDetectContentType
            goMimeTypeByExtension txtFixture).2 ∈
            (["image", "video", "audio", "archive"] : List String) then -1.2 else
          (if normTradeoff "balanced" = "ratio" then 3.0
            else if normTradeoff "balanced" = "balanced" then 1.6 else 0.6) +
            (if sizeMBOf (effSize txtFixture 1048576) > 100 then 1.2 else 0))) :=
  ⟨by decide, rfl,
    (C2_compression_scoring goDetectContentType goMimeTypeByExtension encPriority
      compPriority txtFixture 0 0 1048576 ⟨"balanced", false, false⟩ _
      (by decide) rfl).1⟩

/-- C3: For every successful call, the result has `Compression = "none"`
and `SkipCompression = true` exactly when the category is already-compressed
and (the winning compression score is `< 0.5` or the winner is lz4 with a
normalized tradeoff other than ratio); otherwise `Compression` is the winning
candidate and `SkipCompression = false`. -/
theorem C3_skip_policy (dct : List Nat → String) (tbe : String → String)
    (eo co : List String) (f : GoFile) (luh : Int) (att : ℚ) (sz : Int)
    (prefs : Prefs) (r : Recommendation)
    (hperm : co.Perm compCandidates)
    (h : RecommendAlgorithms dct tbe eo co (some f) luh att sz prefs = Except.ok r) :
    ((r.Compression = "none" ∧ r.SkipCompression = true) ↔
      ((detectFileCategory dct tbe f).2 ∈
          (["image", "video", "audio", "archive"] : List String) ∧
        (compScores dct tbe f sz prefs (bestCompOf dct tbe co f sz prefs) < 0.5 ∨
          (bestCompOf dct tbe co f sz prefs = "lz4" ∧
            normTradeoff prefs.Tradeoff ≠ "ratio")))) ∧
      (¬((detectFileCategory dct tbe f).2 ∈
          (["image", "video", "audio", "archive"] : List String) ∧
        (compScores dct tbe f sz prefs (bestCompOf dct tbe co f sz prefs) < 0.5 ∨
          (bestCompOf dct tbe co f sz prefs = "lz4" ∧
            normTradeoff prefs.Tradeoff ≠ "ratio"))) →
        r.Compression = bestCompOf dct tbe co f sz prefs ∧
          r.SkipCompression = false) := by
  have hr := recommend_ok_inv dct tbe eo co f luh att sz prefs r h
  subst hr
  obtain ⟨hmem, hpick, hmax⟩ := bestComp_max dct tbe co f sz prefs hperm
  have hskiff : skipOf dct tbe co f sz prefs = true ↔
      ((detectFileCategory dct tbe f).2 ∈
          (["image", "video", "audio", "archive"] : List String) ∧
        (compScores dct tbe f sz prefs (bestCompOf dct tbe co f sz prefs) < 0.5 ∨
          (bestCompOf dct tbe co f sz prefs = "lz4" ∧
            normTradeoff prefs.Tradeoff ≠ "ratio"))) := by
    unfold skipOf
    rw [hpick, isAlreadyCompressed_eq_decide]
    simp [optLtQ]
  constructor
  · constructor
    · rintro ⟨_, hskip⟩
      rw [core_Skip] at hskip
      exact hskiff.mp hskip
    · intro hrhs
      have hsk := hskiff.mpr hrhs
      rw [core_Compression, core_Skip, hsk]
      simp
  · intro hnr
    have hsk : skipOf dct tbe co f sz prefs = false := by
      cases hs : skipOf dct tbe co f sz prefs with
      | false => rfl
      | true => exact absurd (hskiff.mp hs) hnr
    rw [core_Compression, core_Skip, hsk]
    simp

/-- An image-file fixture: name `photo.png`, PNG magic content. -/
def imgFixture : GoFile := ⟨"photo.png", pngSig, false, false⟩

/-- Witness for C3: a file classified as image with `tradeoff = balanced` and
default signals yields `Compression = "none"` and `SkipCompression = true`. -/
theorem C3_skip_policy_witness :
    compPriority.Perm compCandidates ∧
      (recommendCore goDetectContentType goMimeTypeByExtension encPriority
          compPriority imgFixture 0 0 0 ⟨"balanced", false, false⟩).Compression =
        "none" ∧
      (recommendCore goDetectContentType goMimeTypeByExtension encPriority
          compPriority imgFixture 0 0 0 ⟨"balanced", false, false⟩).SkipCompression =
        true :=
  ⟨by decide,
    (C3_skip_policy goDetectContentType goMimeTypeByExtension encPriority
      compPriority imgFixture 0 0 0 ⟨"balanced", false, false⟩ _
      (by decide) rfl).1.mpr
      ⟨by decide,
        Or.inr
          ⟨(bestComp_lz4_of_AC goDetectContentType goMimeTypeByExtension
              compPriority imgFixture 0 ⟨"balanced", false, false⟩
              (by decide) rfl).1,
            by decide⟩⟩⟩

/-- Closed form of the zstd level policy as the spec words it (with `≤`
thresholds and an explicit clamp to `[1, 22]`). -/
theorem goZstdLevel_closed (t : String) (m : ℚ) :
    goZstdLevel t m = max 1 (min 22
      (if t = "speed" then 1
       else if t = "balanced" then
         (if m ≤ 50 then 3 else if m ≤ 200 then 5 else 3)
       else if t = "ratio" then
         (if m ≤ 200 then 7 else if m ≤ 500 then 9 else 12)
       else 3)) := by
  unfold goZstdLevel
  split_ifs <;> first | decide | linarith

/-- C4: Whenever the final compression choice is zstd, the returned
`ZstdLevel` follows the tabulated policy: 1 for speed; for balanced 3 / 5 / 3
at the 50MB and 200MB thresholds (the `>200` plateau preserved); for ratio
7 / 9 / 12 at the 200MB and 500MB thresholds; 3 for any other tradeoff;
clamped to `[1, 22]`. -/
theorem C4_zstd_level (dct : List Nat → String) (tbe : String → String)
    (eo co : List String) (f : GoFile) (luh : Int) (att : ℚ) (sz : Int)
    (prefs : Prefs) (r : Recommendation)
    (h : RecommendAlgorithms dct tbe eo co (some f) luh att sz prefs = Except.ok r)
    (hz : r.Compression = "zstd") :
    r.ZstdLevel = max 1 (min 22
      (if normTradeoff prefs.Tradeoff = "speed" then 1
       else if normTradeoff prefs.Tradeoff = "balanced" then
         (if sizeMBOf (effSize f sz) ≤ 50 then 3
          else if sizeMBOf (effSize f sz) ≤ 200 then 5 else 3)
       else if normTradeoff prefs.Tradeoff = "ratio" then
         (if sizeMBOf (effSize f sz) ≤ 200 then 7
          else if sizeMBOf (effSize f sz) ≤ 500 then 9 else 12)
       else 3)) := by
  have hr := recommend_ok_inv dct tbe eo co f luh att sz prefs r h
  subst hr
  rw [core_Compression] at hz
  rw [core_ZstdLevel, if_pos hz]
  exact goZstdLevel_closed _ _

/-- The ratio preference fixture. -/
def ratioPrefs : Prefs := ⟨"ratio", false, false⟩

/-- Full evaluation of the category-text, 600MB, ratio scenario: zstd wins
with score `4.8` over lzma2's `4.3`, nothing is skipped, and the zstd level
is 12. -/
theorem ratio600_facts :
    sizeMBOf (effSize txtFixture (600 * 1048576)) = 600 ∧
      compScores goDetectContentType goMimeTypeByExtension txtFixture
        (600 * 1048576) ratioPrefs "lzma2" = 43/10 ∧
      compScores goDetectContentType goMimeTypeByExtension txtFixture
        (600 * 1048576) ratioPrefs "zstd" = 24/5 ∧
      compScores goDetectContentType goMimeTypeByExtension txtFixture
        (600 * 1048576) ratioPrefs "lz4" = 8/5 ∧
      compScores goDetectContentType goMimeTypeByExtension txtFixture
        (600 * 1048576) ratioPrefs "zip" = 1/10 ∧
      (recommendCore goDetectContentType goMimeTypeByExtension encPriority
        compPriority txtFixture 0 0 (600 * 1048576) ratioPrefs).Compression =
        "zstd" ∧
      (recommendCore goDetectContentType goMimeTypeByExtension encPriority
        compPriority txtFixture 0 0 (600 * 1048576) ratioPrefs).SkipCompression =
        false ∧
      (recommendCore goDetectContentType goMimeTypeByExtension encPriority
        compPriority txtFixture 0 0 (600 * 1048576) ratioPrefs).ZstdLevel = 12 := by
  have hm : sizeMBOf (effSize txtFixture (600 * 1048576)) = 600 := by
    rw [show effSize txtFixture (600 * 1048576) = 600 * 1048576 from rfl]
    norm_num [sizeMBOf]
  have hac : isAlreadyCompressed
      (detectFileCategory goDetectContentType goMimeTypeByExtension txtFixture).2 =
      false := rfl
  have ht : normTradeoff ratioPrefs.Tradeoff = "ratio" := rfl
  have h1 : compScores goDetectContentType goMimeTypeByExtension txtFixture
      (600 * 1048576) ratioPrefs "lzma2" = 43/10 := by
    simp only [compScores, compScore_lzma2, hac, ht, hm]
    norm_num
  have h2 : compScores goDetectContentType goMimeTypeByExtension txtFixture
      (600 * 1048576) ratioPrefs "zstd" = 24/5 := by
    simp only [compScores, compScore_zstd, hac, ht, hm]
    norm_num
  have h3 : compScores goDetectContentType goMimeTypeByExtension txtFixture
      (600 * 1048576) ratioPrefs "lz4" = 8/5 := by
    simp only [compScores, compScore_lz4, hac, ht, hm]
    simp
    all_goals norm_num
  have h4 : compScores goDetectContentType goMimeTypeByExtension txtFixture
      (600 * 1048576) ratioPrefs "zip" = 1/10 := by
    simp only [compScores, compScore_zip, hac, ht, hm]
    simp
    all_goals norm_num
  have hpick : pickBest (compScores goDetectContentType goMimeTypeByExtension
      txtFixture (600 * 1048576) ratioPrefs) compPriority =
      ("zstd", some (compScores goDetectContentType goMimeTypeByExtension
        txtFixture (600 * 1048576) ratioPrefs "zstd")) := by
    refine pickBest_strict_winner _ _ "zstd" (by decide) ?_
    intro y hy hne
    simp only [compPriority, List.mem_cons, List.not_mem_nil, or_false] at hy
    rcases hy with rfl | rfl | rfl | rfl
    · rw [h1, h2]; norm_num
    · exact absurd rfl hne
    · rw [h3, h2]; norm_num
    · rw [h4, h2]; norm_num
  have hbc : bestCompOf goDetectContentType goMimeTypeByExtension compPriority
      txtFixture (600 * 1048576) ratioPrefs = "zstd" := by
    unfold bestCompOf
    rw [hpick]
    simp
  have hskip : skipOf goDetectContentType goMimeTypeByExtension compPriority
      txtFixture (600 * 1048576) ratioPrefs = false := by
    unfold skipOf
    rw [hac]
    simp
  have hcompr : (recommendCore goDetectContentType goMimeTypeByExtension
      encPriority compPriority txtFixture 0 0 (600 * 1048576)
      ratioPrefs).Compression = "zstd" := by
    rw [core_Compression, hskip, hbc]
    simp
  refine ⟨hm, h1, h2, h3, h4, hcompr, ?_, ?_⟩
  · rw [core_Skip, hskip]
  · rw [core_ZstdLevel, hskip, hbc, ht, hm]
    simp [goZstdLevel]
    all_goals norm_num

/-- Witness for C4: tradeoff ratio with `sizeMB = 600` (a text file, where
zstd wins) yields level 12, matching the policy formula. -/
theorem C4_zstd_level_witness :
    RecommendAlgorithms goDetectContentType goMimeTypeByExtension encPriority
        compPriority (some txtFixture) 0 0 (600 * 1048576) ratioPrefs =
      Except.ok (recommendCore goDetectContentType goMimeTypeByExtension
        encPriority compPriority txtFixture 0 0 (600 * 1048576) ratioPrefs) ∧
      (recommendCore goDetectContentType goMimeTypeByExtension encPriority
        compPriority txtFixture 0 0 (600 * 1048576) ratioPrefs).Compression =
        "zstd" ∧
      (recommendCore goDetectContentType goMimeTypeByExtension encPriority
        compPriority txtFixture 0 0 (600 * 1048576) ratioPrefs).ZstdLevel =
        max 1 (min 22
          (if normTradeoff ratioPrefs.Tradeoff = "speed" then 1
           else if normTradeoff ratioPrefs.Tradeoff = "balanced" then
             (if sizeMBOf (effSize txtFixture (600 * 1048576)) ≤ 50 then 3
              else if sizeMBOf (effSize txtFixture (600 * 1048576)) ≤ 200 then 5
              else 3)
           else if normTradeoff ratioPrefs.Tradeoff = "ratio" then
             (if sizeMBOf (effSize txtFixture (600 * 1048576)) ≤ 200 then 7
              else if sizeMBOf (effSize txtFixture (600 * 1048576)) ≤ 500 then 9
              else 12)
           else 3)) ∧
      (recommendCore goDetectContentType goMimeTypeByExtension encPriority
        compPriority txtFixture 0 0 (600 * 1048576) ratioPrefs).ZstdLevel = 12 :=
  ⟨rfl, ratio600_facts.2.2.2.2.2.1,
    C4_zstd_level goDetectContentType goMimeTypeByExtension encPriority
      compPriority txtFixture 0 0 (600 * 1048576) ratioPrefs _ rfl
      ratio600_facts.2.2.2.2.2.1,
    ratio600_facts.2.2.2.2.2.2.2⟩

/-- Counterexample to **C5** as stated: for a text file with `sizeMB = 600`
and tradeoff ratio, the compression winner is zstd, not lzma2 — lzma2 scores
`4.3`, strictly below zstd's `4.8`. -/
theorem C5_counterexample :
    RecommendAlgorithms goDetectContentType goMimeTypeByExtension encPriority
        compPriority (some txtFixture) 0 0 (600 * 1048576) ratioPrefs =
      Except.ok (recommendCore goDetectContentType goMimeTypeByExtension
        encPriority compPriority txtFixture 0 0 (600 * 1048576) ratioPrefs) ∧
      (recommendCore goDetectContentType goMimeTypeByExtension encPriority
        compPriority txtFixture 0 0 (600 * 1048576)
        ratioPrefs).DetectedCategory = "text" ∧
      sizeMBOf (effSize txtFixture (600 * 1048576)) = 600 ∧
      normTradeoff ratioPrefs.Tradeoff = "ratio" ∧
      ¬(recommendCore goDetectContentType goMimeTypeByExtension encPriority
        compPriority txtFixture 0 0 (600 * 1048576) ratioPrefs).Compression =
        "lzma2" ∧
      compScores goDetectContentType goMimeTypeByExtension txtFixture
          (600 * 1048576) ratioPrefs "lzma2" <
        compScores goDetectContentType goMimeTypeByExtension txtFixture
          (600 * 1048576) ratioPrefs "zstd" := by
  refine ⟨rfl, by decide, ratio600_facts.1, rfl, ?_, ?_⟩
  · rw [ratio600_facts.2.2.2.2.2.1]
    decide
  · rw [ratio600_facts.2.1, ratio600_facts.2.2.1]
    norm_num

/-- C5 (amended): For a text file with `sizeMB = 600` and tradeoff ratio,
zstd wins over lzma2: with the base `0.1`, lzma2 scores `0.1+3.0+1.2 = 4.3`
and zstd scores `0.1+2.5+1.0+1.2 = 4.8` (the `>500MB` bonus applying to zstd
and lz4 only), so the chosen compression is zstd and nothing is skipped. -/
theorem C5_large_text_ratio_amended :
    (recommendCore goDetectContentType goMimeTypeByExtension encPriority
        compPriority txtFixture 0 0 (600 * 1048576) ratioPrefs).Compression =
        "zstd" ∧
      (recommendCore goDetectContentType goMimeTypeByExtension encPriority
        compPriority txtFixture 0 0 (600 * 1048576)
        ratioPrefs).SkipCompression = false ∧
      (recommendCore goDetectContentType goMimeTypeByExtension encPriority
        compPriority txtFixture 0 0 (600 * 1048576)
        ratioPrefs).DetectedCategory = "text" ∧
      compScores goDetectContentType goMimeTypeByExtension txtFixture
        (600 * 1048576) ratioPrefs "lzma2" = 43/10 ∧
      compScores goDetectContentType goMimeTypeByExtension txtFixture
        (600 * 1048576) ratioPrefs "zstd" = 24/5 ∧
      compScores goDetectContentType goMimeTypeByExtension txtFixture
        (600 * 1048576) ratioPrefs "lz4" = 8/5 ∧
      compScores goDetectContentType goMimeTypeByExtension txtFixture
        (600 * 1048576) ratioPrefs "zip" = 1/10 :=
  ⟨ratio600_facts.2.2.2.2.2.1, ratio600_facts.2.2.2.2.2.2.1, by decide,
    ratio600_facts.2.1, ratio600_facts.2.2.1, ratio600_facts.2.2.2.1,
    ratio600_facts.2.2.2.2.1⟩

/-- The balanced preference fixture. -/
def balPrefs : Prefs := ⟨"balanced", false, false⟩

/-- The speed preference fixture. -/
def speedPrefs : Prefs := ⟨"speed", false, false⟩

/-- Compression scores of the exact-tie input: category text, tradeoff speed,
`sizeMB = 600`: zstd scores `0.1+1.2+1.0+1.2` and lz4 scores `0.1+2.2+1.2`,
both exactly `3.5`, while lzma2 scores `1.9` and zip `0.7`.  The tie is not
an artifact of the rational embedding: the source's IEEE-754 double
evaluation of both addition chains also yields exactly `3.5` (each rounded
partial sum lands so that the final addition of `1.2` rounds to `3.5`),
whereas lzma2 and zip stay strictly below. -/
theorem speed600_facts :
    compScores goDetectContentType goMimeTypeByExtension txtFixture
        (600 * 1048576) speedPrefs "zstd" = 7/2 ∧
      compScores goDetectContentType goMimeTypeByExtension txtFixture
        (600 * 1048576) speedPrefs "lz4" = 7/2 ∧
      compScores goDetectContentType goMimeTypeByExtension txtFixture
        (600 * 1048576) speedPrefs "lzma2" = 19/10 ∧
      compScores goDetectContentType goMimeTypeByExtension txtFixture
        (600 * 1048576) speedPrefs "zip" = 7/10 := by
  have hm : sizeMBOf (effSize txtFixture (600 * 1048576)) = 600 := by
    rw [show effSize txtFixture (600 * 1048576) = 600 * 1048576 from rfl]
    norm_num [sizeMBOf]
  have hac : isAlreadyCompressed
      (detectFileCategory goDetectContentType goMimeTypeByExtension txtFixture).2 =
      false := rfl
  have ht : normTradeoff speedPrefs.Tradeoff = "speed" := rfl
  refine ⟨?_, ?_, ?_, ?_⟩
  · simp only [compScores, compScore_zstd, hac, ht, hm]
    simp
    all_goals norm_num
  · simp only [compScores, compScore_lz4, hac, ht, hm]
    simp
    all_goals norm_num
  · simp only [compScores, compScore_lzma2, hac, ht, hm]
    simp
    all_goals norm_num
  · simp only [compScores, compScore_zip, hac, ht, hm]
    simp
    all_goals norm_num

/-- Counterexample to **C6** as stated: on the exact compression-score tie of
`speed600_facts` (zstd and lz4 both score `3.5`, in the source's float64
arithmetic as well as here), the winner is whichever of the two the map
iteration visits first — two runs with identical program inputs can return
compression zstd or lz4, so the source is not deterministic on exact score
ties. -/
theorem C6_counterexample :
    RecommendAlgorithms goDetectContentType goMimeTypeByExtension encPriority
        ["zstd", "lz4", "lzma2", "zip"] (some txtFixture) 0 0 (600 * 1048576)
        speedPrefs =
      Except.ok (recommendCore goDetectContentType goMimeTypeByExtension
        encPriority ["zstd", "lz4", "lzma2", "zip"] txtFixture 0 0
        (600 * 1048576) speedPrefs) ∧
      RecommendAlgorithms goDetectContentType goMimeTypeByExtension encPriority
        ["lz4", "zstd", "lzma2", "zip"] (some txtFixture) 0 0 (600 * 1048576)
        speedPrefs =
      Except.ok (recommendCore goDetectContentType goMimeTypeByExtension
        encPriority ["lz4", "zstd", "lzma2", "zip"] txtFixture 0 0
        (600 * 1048576) speedPrefs) ∧
      (recommendCore goDetectContentType goMimeTypeByExtension encPriority
        ["zstd", "lz4", "lzma2", "zip"] txtFixture 0 0 (600 * 1048576)
        speedPrefs).Compression = "zstd" ∧
      (recommendCore goDetectContentType goMimeTypeByExtension encPriority
        ["lz4", "zstd", "lzma2", "zip"] txtFixture 0 0 (600 * 1048576)
        speedPrefs).Compression = "lz4" ∧
      compScores goDetectContentType goMimeTypeByExtension txtFixture
          (600 * 1048576) speedPrefs "zstd" =
        compScores goDetectContentType goMimeTypeByExtension txtFixture
          (600 * 1048576) speedPrefs "lz4" ∧
      ["zstd", "lz4", "lzma2", "zip"].Perm compCandidates ∧
      ["lz4", "zstd", "lzma2", "zip"].Perm compCandidates := by
  obtain ⟨hz, hl, hlm, hzp⟩ := speed600_facts
  have hac : isAlreadyCompressed
      (detectFileCategory goDetectContentType goMimeTypeByExtension txtFixture).2 =
      false := rfl
  have hskip1 : skipOf goDetectContentType goMimeTypeByExtension
      ["zstd", "lz4", "lzma2", "zip"] txtFixture (600 * 1048576) speedPrefs =
      false := by
    unfold skipOf
    rw [hac]
    simp
  have hskip2 : skipOf goDetectContentType goMimeTypeByExtension
      ["lz4", "zstd", "lzma2", "zip"] txtFixture (600 * 1048576) speedPrefs =
      false := by
    unfold skipOf
    rw [hac]
    simp
  have hbc1 : bestCompOf goDetectContentType goMimeTypeByExtension
      ["zstd", "lz4", "lzma2", "zip"] txtFixture (600 * 1048576) speedPrefs =
      "zstd" := by
    simp only [bestCompOf]
    rcases pickBest_four_priority (compScores goDetectContentType
        goMimeTypeByExtension txtFixture (600 * 1048576) speedPrefs)
        "zstd" "lz4" "lzma2" "zip" with
      ⟨hp, _, _, _⟩ | ⟨_, hlt, _, _⟩ | ⟨_, hlt, _, _⟩ | ⟨_, hlt, _, _⟩
    · rw [hp]
      simp
    · rw [hz, hl] at hlt
      exact absurd hlt (by norm_num)
    · rw [hz, hlm] at hlt
      exact absurd hlt (by norm_num)
    · rw [hz, hzp] at hlt
      exact absurd hlt (by norm_num)
  have hbc2 : bestCompOf goDetectContentType goMimeTypeByExtension
      ["lz4", "zstd", "lzma2", "zip"] txtFixture (600 * 1048576) speedPrefs =
      "lz4" := by
    simp only [bestCompOf]
    rcases pickBest_four_priority (compScores goDetectContentType
        goMimeTypeByExtension txtFixture (600 * 1048576) speedPrefs)
        "lz4" "zstd" "lzma2" "zip" with
      ⟨hp, _, _, _⟩ | ⟨_, hlt, _, _⟩ | ⟨_, hlt, _, _⟩ | ⟨_, hlt, _, _⟩
    · rw [hp]
      simp
    · rw [hz, hl] at hlt
      exact absurd hlt (by norm_num)
    · rw [hl, hlm] at hlt
      exact absurd hlt (by norm_num)
    · rw [hl, hzp] at hlt
      exact absurd hlt (by norm_num)
  refine ⟨rfl, rfl, ?_, ?_, by rw [hz, hl], by decide, by decide⟩
  · rw [core_Compression, hskip1, hbc1]
    simp
  · rw [core_Compression, hskip2, hbc2]
    simp

/-- C6 (amended): `RecommendAlgorithms` is a pure function of its inputs
and of the two map iteration orders, so for each fixed order identical inputs
give identical outputs; the source's tie order is the unspecified Go map
iteration order, and with the iteration orders fixed to the priority lists
(`aes256gcm > aes256gcmsiv > xchacha20poly1305` and
`lzma2 > zstd > lz4 > zip`) every exact score tie resolves to the
highest-priority candidate: the winner is the earliest candidate of maximal
score in the priority list. -/
theorem C6_determinism_amended (dct : List Nat → String) (tbe : String → String)
    (f : GoFile) (luh : Int) (att : ℚ) (sz : Int) (prefs : Prefs)
    (r : Recommendation)
    (h : RecommendAlgorithms dct tbe encPriority compPriority (some f) luh att
      sz prefs = Except.ok r) :
    ((r.Encryption = "aes256gcm" ∧
        encScores f luh att sz prefs "aes256gcmsiv" ≤
          encScores f luh att sz prefs "aes256gcm" ∧
        encScores f luh att sz prefs "xchacha20poly1305" ≤
          encScores f luh att sz prefs "aes256gcm") ∨
      (r.Encryption = "aes256gcmsiv" ∧
        encScores f luh att sz prefs "aes256gcm" <
          encScores f luh att sz prefs "aes256gcmsiv" ∧
        encScores f luh att sz prefs "xchacha20poly1305" ≤
          encScores f luh att sz prefs "aes256gcmsiv") ∨
      (r.Encryption = "xchacha20poly1305" ∧
        encScores f luh att sz prefs "aes256gcm" <
          encScores f luh att sz prefs "xchacha20poly1305" ∧
        encScores f luh att sz prefs "aes256gcmsiv" <
          encScores f luh att sz prefs "xchacha20poly1305")) ∧
    ((bestCompOf dct tbe compPriority f sz prefs = "lzma2" ∧
        compScores dct tbe f sz prefs "zstd" ≤
          compScores dct tbe f sz prefs "lzma2" ∧
        compScores dct tbe f sz prefs "lz4" ≤
          compScores dct tbe f sz prefs "lzma2" ∧
        compScores dct tbe f sz prefs "zip" ≤
          compScores dct tbe f sz prefs "lzma2") ∨
      (bestCompOf dct tbe compPriority f sz prefs = "zstd" ∧
        compScores dct tbe f sz prefs "lzma2" <
          compScores dct tbe f sz prefs "zstd" ∧
        compScores dct tbe f sz prefs "lz4" ≤
          compScores dct tbe f sz prefs "zstd" ∧
        compScores dct tbe f sz prefs "zip" ≤
          compScores dct tbe f sz prefs "zstd") ∨
      (bestCompOf dct tbe compPriority f sz prefs = "lz4" ∧
        compScores dct tbe f sz prefs "lzma2" <
          compScores dct tbe f sz prefs "lz4" ∧
        compScores dct tbe f sz prefs "zstd" <
          compScores dct tbe f sz prefs "lz4" ∧
        compScores dct tbe f sz prefs "zip" ≤
          compScores dct tbe f sz prefs "lz4") ∨
      (bestCompOf dct tbe compPriority f sz prefs = "zip" ∧
        compScores dct tbe f sz prefs "lzma2" <
          compScores dct tbe f sz prefs "zip" ∧
        compScores dct tbe f sz prefs "zstd" <
          compScores dct tbe f sz prefs "zip" ∧
        compScores dct tbe f sz prefs "lz4" <
          compScores dct tbe f sz prefs "zip")) := by
  have hr := recommend_ok_inv dct tbe encPriority compPriority f luh att sz
    prefs r h
  subst hr
  constructor
  · rw [core_Encryption]
    simp only [bestEncOf, encPriority]
    rcases pickBest_three_priority (encScores f luh att sz prefs) "aes256gcm"
        "aes256gcmsiv" "xchacha20poly1305" with
      ⟨hp, hb, hc⟩ | ⟨hp, hb, hc⟩ | ⟨hp, hb, hc⟩
    · rw [hp]
      exact Or.inl ⟨by simp, hb, hc⟩
    · rw [hp]
      exact Or.inr (Or.inl ⟨by simp, hb, hc⟩)
    · rw [hp]
      exact Or.inr (Or.inr ⟨by simp, hb, hc⟩)
  · simp only [bestCompOf, compPriority]
    rcases pickBest_four_priority (compScores dct tbe f sz prefs) "lzma2"
        "zstd" "lz4" "zip" with
      ⟨hp, hb, hc, hd⟩ | ⟨hp, hb, hc, hd⟩ | ⟨hp, hb, hc, hd⟩ | ⟨hp, hb, hc, hd⟩
    · rw [hp]
      exact Or.inl ⟨by simp, hb, hc, hd⟩
    · rw [hp]
      exact Or.inr (Or.inl ⟨by simp, hb, hc, hd⟩)
    · rw [hp]
      exact Or.inr (Or.inr (Or.inl ⟨by simp, hb, hc, hd⟩))
    · rw [hp]
      exact Or.inr (Or.inr (Or.inr ⟨by simp, hb, hc, hd⟩))

/-- Witness for the amended C6 at the genuine tie of `speed600_facts`: with
the priority iteration order `lzma2 > zstd > lz4 > zip`, the tie between zstd
and lz4 (both `3.5`) resolves to zstd, the higher-priority candidate. -/
theorem C6_determinism_amended_witness :
    RecommendAlgorithms goDetectContentType goMimeTypeByExtension encPriority
        compPriority (some txtFixture) 0 0 (600 * 1048576) speedPrefs =
      Except.ok (recommendCore goDetectContentType goMimeTypeByExtension
        encPriority compPriority txtFixture 0 0 (600 * 1048576) speedPrefs) ∧
      compScores goDetectContentType goMimeTypeByExtension txtFixture
          (600 * 1048576) speedPrefs "zstd" =
        compScores goDetectContentType goMimeTypeByExtension txtFixture
          (600 * 1048576) speedPrefs "lz4" ∧
      bestCompOf goDetectContentType goMimeTypeByExtension compPriority
        txtFixture (600 * 1048576) speedPrefs = "zstd" := by
  obtain ⟨hz, hl, hlm, hzp⟩ := speed600_facts
  refine ⟨rfl, by rw [hz, hl], ?_⟩
  rcases (C6_determinism_amended goDetectContentType goMimeTypeByExtension
      txtFixture 0 0 (600 * 1048576) speedPrefs _ rfl).2 with
    ⟨_, hlt, _, _⟩ | ⟨hp, _, _, _⟩ | ⟨_, _, hlt, _⟩ | ⟨_, _, hlt, _⟩
  · rw [hz, hlm] at hlt
    exact absurd hlt (by norm_num)
  · exact hp
  · rw [hz, hl] at hlt
    exact absurd hlt (by norm_num)
  · rw [hz, hzp] at hlt
    exact absurd hlt (by norm_num)

/-- The category chain with the extension fallback, rewritten through the
MIME-only chain: the fallback applies exactly when the MIME-based rule chose
the default `"binary"`. -/
theorem categoryOf_eq (low ext : String) :
    categoryOf low ext =
      (if mimeOnlyCategory low = "binary" then
        (if ext ∈ textExtras then "text"
         else if ext = ".pdf" then "archive" else "binary")
      else mimeOnlyCategory low) := by
  unfold categoryOf mimeOnlyCategory
  split_ifs <;> simp_all

/-- A `.go` file whose content is a PNG. -/
def goSrcFixture : GoFile := ⟨"a.go", pngSig, false, false⟩

/-- Counterexample to **C7** as stated: the extension fallback cannot
override a non-binary MIME-based category.  A file named `a.go` holding PNG
content sniffs to `image/png`; `.go` is in the forced-text extension set,
yet the category stays `image`, not `text`. -/
theorem C7_counterexample :
    ".go" ∈ textExtras ∧
      goToLower (goFilepathExt goSrcFixture.name) = ".go" ∧
      mimeOnlyCategory (goToLower (finalMime goDetectContentType
        goMimeTypeByExtension goSrcFixture)) = "image" ∧
      detectFileCategory goDetectContentType goMimeTypeByExtension
        goSrcFixture = ("image/png", "image") ∧
      (detectFileCategory goDetectContentType goMimeTypeByExtension
        goSrcFixture).2 ≠ "text" := by
  decide

/-- C7 (amended): The extension-based category fallback runs after the
MIME-based category decision but applies only when that decision produced the
default `binary`: in that case an extension in the fixed set forces `text`
and `.pdf` forces `archive`; when the MIME-based rule chose any non-binary
category, the fallback does not run and that category stands. -/
theorem C7_extension_fallback_amended (dct : List Nat → String)
    (tbe : String → String) (f : GoFile) (hre : f.readErr = false) :
    (detectFileCategory dct tbe f).1 = finalMime dct tbe f ∧
      (mimeOnlyCategory (goToLower (finalMime dct tbe f)) = "binary" →
        ((goToLower (goFilepathExt f.name) ∈ textExtras →
          (detectFileCategory dct tbe f).2 = "text") ∧
         (goToLower (goFilepathExt f.name) = ".pdf" →
          (detectFileCategory dct tbe f).2 = "archive"))) ∧
      (mimeOnlyCategory (goToLower (finalMime dct tbe f)) ≠ "binary" →
        (detectFileCategory dct tbe f).2 =
          mimeOnlyCategory (goToLower (finalMime dct tbe f))) := by
  refine ⟨by simp [detectFileCategory, hre], ?_, ?_⟩
  · intro hb
    constructor
    · intro hx
      simp [detectFileCategory, hre, categoryOf_eq, hb, hx]
    · intro hpdf
      have hnx : goToLower (goFilepathExt f.name) ∉ textExtras := by
        rw [hpdf]
        decide
      simp [detectFileCategory, hre, categoryOf_eq, hb, hpdf, hnx]
      decide
  · intro hb
    simp [detectFileCategory, hre, categoryOf_eq, hb]

/-- A `.json` file with binary (octet-stream-sniffing) content. -/
def jsonFixture : GoFile := ⟨"a.json", [0], false, false⟩

/-- Witness for the amended C7: content sniffing to octet-stream plus
extension `.json` classifies as category `text`. -/
theorem C7_extension_fallback_amended_witness :
    jsonFixture.readErr = false ∧
      goDetectContentType (jsonFixture.content.take 512) =
        "application/octet-stream" ∧
      (detectFileCategory goDetectContentType goMimeTypeByExtension
        jsonFixture).2 = "text" :=
  ⟨rfl, rfl,
    ((C7_extension_fallback_amended goDetectContentType goMimeTypeByExtension
      jsonFixture rfl).2.1 (by decide)).1 (by decide)⟩

/-- A zero-byte file whose name has no extension. -/
def emptyFixture : GoFile := ⟨"noext", [], false, false⟩

/-- Counterexample to **C8** as stated: a zero-byte read is an EOF, not an
error, and Go's content sniffer classifies empty data as
`text/plain; charset=utf-8`, so a zero-byte file with no known extension is
not classified as `application/octet-stream` / `binary`. -/
theorem C8_counterexample :
    goFilepathExt emptyFixture.name = "" ∧
      detectFileCategory goDetectContentType goMimeTypeByExtension
        emptyFixture ≠ ("application/octet-stream", "binary") ∧
      (detectFileCategory goDetectContentType goMimeTypeByExtension
        emptyFixture).2 ≠ "binary" := by
  decide

/-- C8 (amended): For a zero-byte file whose name yields no known
extension mapping, classification succeeds without error and returns MIME
`text/plain; charset=utf-8` and category `text` (the sniffer's text
signature matches empty data). -/
theorem C8_zero_byte_amended :
    detectFileCategory goDetectContentType goMimeTypeByExtension emptyFixture =
        ("text/plain; charset=utf-8", "text") ∧
      RecommendAlgorithms goDetectContentType goMimeTypeByExtension encPriority
          compPriority (some emptyFixture) 0 0 0 balPrefs =
        Except.ok (recommendCore goDetectContentType goMimeTypeByExtension
          encPriority compPriority emptyFixture 0 0 0 balPrefs) ∧
      (recommendCore goDetectContentType goMimeTypeByExtension encPriority
        compPriority emptyFixture 0 0 0 balPrefs).DetectedMime =
        "text/plain; charset=utf-8" ∧
      (recommendCore goDetectContentType goMimeTypeByExtension encPriority
        compPriority emptyFixture 0 0 0 balPrefs).DetectedCategory = "text" :=
  ⟨by decide, rfl, by decide, by decide⟩

/-- C9: `RecommendAlgorithms` returns an error if and only if the file
handle is nil (and that error is `"file is nil"`); every other anomaly
degrades: in particular a non-EOF prefix-read failure yields MIME
`application/octet-stream` and category `binary` in a successful result
rather than a propagated error. -/
theorem C9_error_handling (dct : List Nat → String) (tbe : String → String)
    (eo co : List String) (file : Option GoFile) (luh : Int) (att : ℚ)
    (sz : Int) (prefs : Prefs) :
    ((∃ e, RecommendAlgorithms dct tbe eo co file luh att sz prefs =
        Except.error e) ↔ file = none) ∧
      (file = none →
        RecommendAlgorithms dct tbe eo co file luh att sz prefs =
          Except.error "file is nil") ∧
      (∀ f, file = some f → f.readErr = true →
        ∃ r, RecommendAlgorithms dct tbe eo co file luh att sz prefs =
            Except.ok r ∧
          r.DetectedMime = "application/octet-stream" ∧
          r.DetectedCategory = "binary") := by
  cases file with
  | none =>
    refine ⟨⟨fun _ => rfl, fun _ => ⟨"file is nil", rfl⟩⟩, fun _ => rfl, ?_⟩
    intro f hf
    exact absurd hf (by simp)
  | some f =>
    refine ⟨⟨?_, ?_⟩, ?_, ?_⟩
    · rintro ⟨e, he⟩
      simp [RecommendAlgorithms] at he
    · intro hn
      exact absurd hn (by simp)
    · intro hn
      exact absurd hn (by simp)
    · intro g hg hre
      obtain rfl : f = g := by
        simpa using hg
      refine ⟨recommendCore dct tbe eo co f luh att sz prefs, rfl, ?_, ?_⟩
      · rw [(core_Detected dct tbe eo co f luh att sz prefs).1]
        simp [detectFileCategory, hre]
      · rw [(core_Detected dct tbe eo co f luh att sz prefs).2]
        simp [detectFileCategory, hre]

/-- A file whose prefix read fails with a non-EOF error. -/
def readErrFixture : GoFile := ⟨"x.bin", [0], true, false⟩

/-- Witness for C9 at a concrete failing-read input. -/
theorem C9_error_handling_witness :
    ∃ r, RecommendAlgorithms goDetectContentType goMimeTypeByExtension
        encPriority compPriority (some readErrFixture) 0 0 0 balPrefs =
        Except.ok r ∧
      r.DetectedMime = "application/octet-stream" ∧
      r.DetectedCategory = "binary" :=
  (C9_error_handling goDetectContentType goMimeTypeByExtension encPriority
    compPriority (some readErrFixture) 0 0 0 balPrefs).2.2 readErrFixture rfl rfl

/-- C10: For every successful call whose detected category is
already-compressed, lz4 is the strict compression winner (score `2.1`, or
`3.3` above 500MB, against at most `0.1` for everyone else, never below
`0.5`), so the call skips compression exactly when the normalized tradeoff
is not ratio, and otherwise returns lz4 unskipped. -/
theorem C10_already_compressed_behavior (dct : List Nat → String)
    (tbe : String → String) (eo co : List String) (f : GoFile) (luh : Int)
    (att : ℚ) (sz : Int) (prefs : Prefs) (r : Recommendation)
    (hperm : co.Perm compCandidates)
    (hcat : (detectFileCategory dct tbe f).2 ∈
      (["image", "video", "audio", "archive"] : List String))
    (h : RecommendAlgorithms dct tbe eo co (some f) luh att sz prefs = Except.ok r) :
    bestCompOf dct tbe co f sz prefs = "lz4" ∧
      compScores dct tbe f sz prefs "lz4" =
        (if sizeMBOf (effSize f sz) > 500 then 3.3 else 2.1) ∧
      (∀ c ∈ compCandidates, c ≠ "lz4" →
        compScores dct tbe f sz prefs c ≤ 0.1) ∧
      (0.5 : ℚ) ≤ compScores dct tbe f sz prefs "lz4" ∧
      ((r.Compression = "none" ∧ r.SkipCompression = true) ↔
        normTradeoff prefs.Tradeoff ≠ "ratio") ∧
      (normTradeoff prefs.Tradeoff = "ratio" →
        r.Compression = "lz4" ∧ r.SkipCompression = false) := by
  have hac : isAlreadyCompressed (detectFileCategory dct tbe f).2 = true := by
    rw [isAlreadyCompressed_eq_decide]
    exact decide_eq_true hcat
  obtain ⟨hbc, hpick, hval, hlow, hhalf⟩ :=
    bestComp_lz4_of_AC dct tbe co f sz prefs hperm hac
  have hr := recommend_ok_inv dct tbe eo co f luh att sz prefs r h
  subst hr
  have hlt : optLtQ (some (compScores dct tbe f sz prefs "lz4")) 0.5 = false := by
    simp only [optLtQ]
    exact decide_eq_false (not_lt.mpr hhalf)
  have hskip : skipOf dct tbe co f sz prefs =
      (normTradeoff prefs.Tradeoff != "ratio") := by
    unfold skipOf
    rw [hpick, hac, hbc, hlt]
    simp
  refine ⟨hbc, hval, hlow, hhalf, ?_, ?_⟩
  · rw [core_Compression, core_Skip, hskip, hbc]
    by_cases ht : normTradeoff prefs.Tradeoff = "ratio"
    · simp [ht]
    · simp [ht]
  · intro ht
    rw [core_Compression, core_Skip, hskip, hbc, ht]
    simp

/-- Witness for C10: an image file with tradeoff ratio keeps lz4 unskipped. -/
theorem C10_already_compressed_behavior_witness :
    compPriority.Perm compCandidates ∧
      (detectFileCategory goDetectContentType goMimeTypeByExtension
        imgFixture).2 ∈ (["image", "video", "audio", "archive"] : List String) ∧
      (recommendCore goDetectContentType goMimeTypeByExtension encPriority
        compPriority imgFixture 0 0 0 ratioPrefs).Compression = "lz4" ∧
      (recommendCore goDetectContentType goMimeTypeByExtension encPriority
        compPriority imgFixture 0 0 0 ratioPrefs).SkipCompression = false := by
  refine ⟨by decide, by decide, ?_, ?_⟩
  · exact ((C10_already_compressed_behavior goDetectContentType
      goMimeTypeByExtension encPriority compPriority imgFixture 0 0 0
      ratioPrefs _ (by decide) (by decide) rfl).2.2.2.2.2 rfl).1
  · exact ((C10_already_compressed_behavior goDetectContentType
      goMimeTypeByExtension encPriority compPriority imgFixture 0 0 0
      ratioPrefs _ (by decide) (by decide) rfl).2.2.2.2.2 rfl).2

end EcaRecommend
